import Mathlib

/-!
Verification of the libEnsemble manager/worker coordination core.

The Python sources embedded here are `libensemble/libE_manager.py`,
`libensemble/libE.py`, `libensemble/alloc_funcs/persistent_aposmm_alloc.py`
and `libensemble/controller.py`.  Machine floats are modelled as `ℚ`
(with `Option ℚ` where a NaN is meaningful), numpy structured arrays as
lists of structures, and fatal `assert`/exception paths as `Except`.
Where the repository module holding a callee is not part of the sources
(`history.py`, `message_numbers.py`, `alloc_funcs/support.py`), the
definition carries a doc comment starting `Modelled from the spec:` and
follows the specification text.
-/

/-! ## Message tags and signals -/

/-- Modelled from the spec: `message_numbers.py` is not among the sources;
the spec only requires stable, distinct integer tags (§6.1).  Work tag for
simulation evaluations. -/
def EVAL_SIM_TAG : ℕ := 1

/-- Modelled from the spec: work tag for generator evaluations. -/
def EVAL_GEN_TAG : ℕ := 2

/-- Modelled from the spec: manager control-channel tag. -/
def STOP_TAG : ℕ := 3

/-- Modelled from the spec: status for a finished persistent simulator. -/
def FINISHED_PERSISTENT_SIM_TAG : ℕ := 11

/-- Modelled from the spec: status for a finished persistent generator. -/
def FINISHED_PERSISTENT_GEN_TAG : ℕ := 12

/-- Modelled from the spec: manager tells worker the run is over. -/
def MAN_SIGNAL_FINISH : ℕ := 20

/-- Modelled from the spec: manager tells worker to kill its running job. -/
def MAN_SIGNAL_KILL : ℕ := 21

/-- Modelled from the spec: manager asks worker to resend (reserved, unused). -/
def MAN_SIGNAL_REQ_RESEND : ℕ := 22

/-- Modelled from the spec: manager asks worker to dump a pickle file. -/
def MAN_SIGNAL_REQ_PICKLE_DUMP : ℕ := 23

/-- Modelled from the spec: sentinel status. -/
def UNSET_TAG : ℕ := 100

/-- Modelled from the spec: worker-reported kill status. -/
def WORKER_KILL : ℕ := 30

/-- Modelled from the spec: worker kill on error status. -/
def WORKER_KILL_ON_ERR : ℕ := 31

/-- Modelled from the spec: worker kill on timeout status. -/
def WORKER_KILL_ON_TIMEOUT : ℕ := 32

/-- Modelled from the spec: simulator returned non-zero. -/
def JOB_FAILED : ℕ := 33

/-- Modelled from the spec: worker finished successfully. -/
def WORKER_DONE : ℕ := 34

/-! ## Data model: history rows, worker registry, work units, messages -/

/-- One row of the history array `H`: the built-in columns of §3.1.
User-declared numeric columns are kept separately in `Hist.vals`. -/
structure Row where
  sim_id : ℕ := 0
  given : Bool := false
  given_time : Option ℚ := none
  sim_worker : ℕ := 0
  gen_worker : ℕ := 0
  returned : Bool := false
  given_back : Bool := false
deriving Repr, DecidableEq, Inhabited

/-- The manager-side history state: the structured array plus the counters
carried by the `History` object (`index`, `given_count`, `sim_count`,
`offset`) and the column-name schema `H.dtype.names`.  `vals` holds the
user-declared numeric columns; a `none` entry is a NaN. -/
structure Hist where
  rows : List Row
  vals : String → List (Option ℚ)
  fieldNames : List String
  index : ℕ
  given_count : ℕ
  sim_count : ℕ
  offset : ℕ

/-- One record of the worker registry `W` (dtype of `initialize`):
`worker_id`, `active`, `persis_state`, `blocked`. -/
structure WorkerRec where
  worker_id : ℕ := 0
  active : ℕ := 0
  persis_state : ℕ := 0
  blocked : Bool := false
deriving Repr, DecidableEq, Inhabited

/-- The `libE_info` sub-record of a work unit: `H_rows`, the presence of the
`persistent` key, and the optional `blocking` id list. -/
structure LibEInfo where
  H_rows : List ℕ := []
  persistent : Bool := false
  blocking : Option (List ℕ) := none
deriving Repr, DecidableEq, Inhabited

/-- A work unit produced by the allocator (§3.3). -/
structure WorkUnit where
  tag : ℕ
  H_fields : List String := []
  persis_info : List (String × ℚ) := []
  libE_info : LibEInfo := {}
deriving Repr, DecidableEq, Inhabited

/-- Payload of a manager-to-worker message. -/
inductive Payload where
  | workUnit (wu : WorkUnit)
  | hSlice (fields : List String) (rows : List ℕ)
  | signal (s : ℕ)
deriving Repr, DecidableEq

/-- A message sent by the manager: destination worker, tag, payload. -/
structure Msg where
  dest : ℕ
  tag : ℕ
  payload : Payload
deriving Repr, DecidableEq

/-- The data one appended or ingested row carries for the user columns. -/
abbrev RowData := List (String × Option ℚ)

/-- The `libE_info` of a received worker message. -/
structure LibEInfoRecv where
  H_rows : List ℕ := []
  persistent : Bool := false
  blocking : Option (List ℕ) := none
deriving Repr, DecidableEq, Inhabited

/-- A worker result payload `D_recv` (§4.4 / §6.1). -/
structure DRecv where
  calc_type : ℕ
  calc_status : ℕ
  calc_out : List RowData := []
  libE_info : Option LibEInfoRecv := none
  persis_info : Option (List (String × ℚ)) := none
deriving Repr, DecidableEq, Inhabited

/-- The per-worker scratch mapping `worker_id -> dict` (§3.4). -/
abbrev PI := ℕ → List (String × ℚ)

/-- The `exit_criteria` dictionary: each key optional. -/
structure ExitCriteria where
  elapsed_wallclock_time : Option ℚ := none
  sim_max : Option ℕ := none
  gen_max : Option ℕ := none
  stop_val : Option (String × ℚ) := none

/-! ## Indexing helpers -/

/-- Index a numpy array of length `len` at python position `w - 1` for a
worker id `w`: numpy wraps `-1` (i.e. `w = 0`) to the last element and
raises `IndexError` out of range. -/
def pyIdx (w len : ℕ) : Option ℕ :=
  if w = 0 then (if len = 0 then none else some (len - 1))
  else if w - 1 < len then some (w - 1) else none

/-- Read entry `i` of the worker registry (default record out of range). -/
def wAt (W : List WorkerRec) (i : ℕ) : WorkerRec := W.getD i default

/-- `W[i] <- f W[i]`, the numpy in-place field assignment. -/
def wSet (W : List WorkerRec) (i : ℕ) (f : WorkerRec → WorkerRec) : List WorkerRec :=
  W.set i (f (wAt W i))

/-! ## Termination test (`libE_manager.termination_test`) -/

/-- `termination_test` of `libE_manager.py` (lines 233-261): returns `2` on
wallclock expiry (checked first), `1` on `sim_max`/`gen_max`/`stop_val`,
and `0` (the Python `False`) otherwise.  `now` stands for `time.time()`. -/
def termination_test (hist : Hist) (exit_criteria : ExitCriteria)
    (start_time now : ℚ) : ℕ :=
  if (match exit_criteria.elapsed_wallclock_time with
      | some t => decide (now - start_time ≥ t)
      | none => false) then 2
  else if (match exit_criteria.sim_max with
      | some m => decide (hist.given_count ≥ m + hist.offset)
      | none => false) then 1
  else if (match exit_criteria.gen_max with
      | some m => decide (hist.index ≥ m + hist.offset)
      | none => false) then 1
  else if (match exit_criteria.stop_val with
      | some kv => ((hist.vals kv.1).take hist.index).any (fun o =>
          match o with
          | some x => decide (x ≤ kv.2)
          | none => false)
      | none => false) then 1
  else 0

/-- The wallclock clause of the spec's termination predicate. -/
def wallCond (ec : ExitCriteria) (start_time now : ℚ) : Prop :=
  ∃ t, ec.elapsed_wallclock_time = some t ∧ now - start_time ≥ t

/-- The `sim_max` clause of the spec's termination predicate. -/
def simMaxCond (hist : Hist) (ec : ExitCriteria) : Prop :=
  ∃ m, ec.sim_max = some m ∧ hist.given_count ≥ m + hist.offset

/-- The `gen_max` clause of the spec's termination predicate. -/
def genMaxCond (hist : Hist) (ec : ExitCriteria) : Prop :=
  ∃ m, ec.gen_max = some m ∧ hist.index ≥ m + hist.offset

/-- The `stop_val` clause: some non-NaN value among `H[field][:index]` is
at most the threshold. -/
def stopValCond (hist : Hist) (ec : ExitCriteria) : Prop :=
  ∃ f thr v, ec.stop_val = some (f, thr) ∧
    some v ∈ (hist.vals f).take hist.index ∧ v ≤ thr

/-! ## History operations

`libensemble/history.py` is not among the sources; its operations are
modelled from §4.2 of the specification. -/

/-- The per-row field assignments of `mark_dispatched`. -/
def markRow (row : Row) (w : ℕ) (now : ℚ) : Row :=
  { row with given := true, given_time := some now, sim_worker := w }

/-- Modelled from the spec: `mark_dispatched(rows, sim_worker)` of §4.2
(the `History.update_history_x_out` called by the manager): for each row,
require `given = false`; set `given`, `given_time`, `sim_worker`; bump
`given_count` by the number flipped. -/
def update_history_x_out : List ℕ → ℕ → ℚ → Hist → Except String Hist
  | [], _, _, hist => .ok hist
  | r :: rest, w, now, hist =>
    match hist.rows.get? r with
    | none => .error ("IndexError: H row out of range")
    | some row =>
      if row.given then .error ("mark_dispatched: row already given")
      else update_history_x_out rest w now
        { hist with rows := hist.rows.set r (markRow row w now),
                    given_count := hist.given_count + 1 }

/-- Write the user-column values of one ingested or appended row into the
columnar store at row position `r`. -/
def setVals (vals : String → List (Option ℚ)) (r : ℕ) (data : RowData) :
    String → List (Option ℚ) :=
  data.foldl (fun v fv => fun f => if f = fv.1 then (v f).set r fv.2 else v f) vals

/-- Modelled from the spec: the row-by-row body of `ingest_sim_result` of
§4.2: require `given = true, returned = false`; write user fields; set
`returned`; bump `sim_count`. -/
def ingestRows : List (ℕ × RowData) → Hist → Except String Hist
  | [], hist => .ok hist
  | (r, data) :: rest, hist =>
    match hist.rows.get? r with
    | none => .error ("IndexError: H row out of range")
    | some row =>
      if row.given = true ∧ row.returned = false then
        ingestRows rest
          { hist with
              rows := hist.rows.set r { row with returned := true },
              vals := setVals hist.vals r data,
              sim_count := hist.sim_count + 1 }
      else .error ("ingest_sim_result: row not given or already returned")

/-- Modelled from the spec: `History.update_history_f(D_recv)` ingests the
simulator output rows listed in `D_recv.libE_info.H_rows`. -/
def update_history_f (D : DRecv) (hist : Hist) : Except String Hist :=
  match D.libE_info with
  | none => .error ("KeyError: libE_info")
  | some info => ingestRows (info.H_rows.zip D.calc_out) hist

/-- Modelled from the spec: `append_gen_output(gen_worker, rows)` of §4.2
(the `History.update_history_x_in` called by the manager): append the rows
at position `index`, assign consecutive `sim_id`s starting at `index`, set
`gen_worker`, advance `index` by the row count. -/
def update_history_x_in (w : ℕ) (calc_out : List RowData) (hist : Hist) : Hist :=
  let k := calc_out.length
  let newRows := (List.range k).map
    (fun j => { (default : Row) with sim_id := hist.index + j, gen_worker := w })
  { hist with
      rows := hist.rows.take hist.index ++ newRows ++ hist.rows.drop (hist.index + k),
      vals := ((List.range k).zip calc_out).foldl
        (fun v jd => setVals v (hist.index + jd.1) jd.2) hist.vals,
      index := hist.index + k }

/-- Modelled from the spec: `trim()` of §4.2 returns the first `index` rows
of `H`, as a pure value of the history state. -/
def trim_H (hist : Hist) : List Row := hist.rows.take hist.index

/-! ## Dispatch (`libE_manager.send_to_worker_and_update_active_and_idle`) -/

/-- The reservation loop over `Work['libE_info']['blocking']` (lines
99-103): each listed id must be idle, then is marked `blocked = 1`,
`active = 1`. -/
def blockWorkers : List ℕ → List WorkerRec → Except String (List WorkerRec)
  | [], W => .ok W
  | b :: rest, W =>
    match pyIdx b W.length with
    | none => .error ("IndexError: W row out of range")
    | some j =>
      if (wAt W j).active = 0 then
        blockWorkers rest (wSet W j (fun r => { r with blocked := true, active := 1 }))
      else .error ("Active worker being blocked; aborting")

/-- `send_to_worker_and_update_active_and_idle` (lines 76-108).  The comm
sends are collected in a message log, kept also on the failing paths so
that aborts can be compared with what was already sent.  The history slice
message carries the requested fields and rows. -/
def send_to_worker_and_update_active_and_idle (hist : Hist) (Work : WorkUnit)
    (w : ℕ) (W : List WorkerRec) (now : ℚ) :
    Except (String × List Msg) (List WorkerRec × Hist × List Msg) :=
  if w = 0 then .error ("Can't send to worker 0; this is the manager. Aborting", [])
  else
    match pyIdx w W.length with
    | none => .error ("IndexError: W row out of range", [])
    | some i =>
      if (wAt W i).active ≠ 0 then
        .error ("Allocation function requested work to an already active worker. Aborting", [])
      else
        let m1 : List Msg := [⟨w, Work.tag, .workUnit Work⟩]
        let work_rows := Work.libE_info.H_rows
        let slice : Except (String × List Msg) (List Msg) :=
          if work_rows = [] then .ok m1
          else if Work.H_fields.all (fun f => hist.fieldNames.contains f) then
            .ok (m1 ++ [⟨w, 0, .hSlice Work.H_fields work_rows⟩])
          else .error ("Allocation function requested a field not in history", m1)
        match slice with
        | .error e => .error e
        | .ok msgs =>
          let W1 := wSet W i (fun r => { r with active := Work.tag })
          let W2 := if Work.libE_info.persistent then
              wSet W1 i (fun r => { r with persis_state := Work.tag }) else W1
          match blockWorkers (Work.libE_info.blocking.getD []) W2 with
          | .error e => .error (e, msgs)
          | .ok W3 =>
            if Work.tag = EVAL_SIM_TAG then
              match update_history_x_out work_rows w now hist with
              | .error e => .error (e, msgs)
              | .ok hist1 => .ok (W3, hist1, msgs)
            else .ok (W3, hist, msgs)

/-! ## Incoming-message handling (`libE_manager._handle_msg_from_worker`) -/

/-- `check_received_calc` on the status field (lines 138-148). -/
def validStatuses : List ℕ :=
  [FINISHED_PERSISTENT_SIM_TAG, FINISHED_PERSISTENT_GEN_TAG,
   UNSET_TAG, MAN_SIGNAL_FINISH, MAN_SIGNAL_KILL,
   WORKER_KILL_ON_ERR, WORKER_KILL_ON_TIMEOUT, WORKER_KILL,
   JOB_FAILED, WORKER_DONE]

/-- The unblock loop of lines 187-191: clear `blocked` and `active` on each
id listed in `D_recv['libE_info']['blocking']`. -/
def unblockWorkers : List ℕ → List WorkerRec → Except String (List WorkerRec)
  | [], W => .ok W
  | b :: rest, W =>
    match pyIdx b W.length with
    | none => .error ("IndexError: W row out of range")
    | some j => unblockWorkers rest (wSet W j (fun r => { r with blocked := false, active := 0 }))

/-- The blocking list of a received payload: present only when `libE_info`
is present and holds a `blocking` key. -/
def blockingOf (D : DRecv) : List ℕ :=
  match D.libE_info with
  | none => []
  | some info => info.blocking.getD []

/-- Whether `'libE_info' in D_recv and 'persistent' in D_recv['libE_info']`. -/
def persistentOf (D : DRecv) : Bool :=
  match D.libE_info with
  | none => false
  | some info => info.persistent

/-- Update an entry of a python dict held as an association list. -/
def assocSet : List (String × ℚ) → String → ℚ → List (String × ℚ)
  | [], k, v => [(k, v)]
  | kv :: rest, k, v => if kv.1 = k then (k, v) :: rest else kv :: assocSet rest k v

/-- The `persis_info` merge of lines 193-195. -/
def mergePersis (pi : PI) (w : ℕ) (dpi : Option (List (String × ℚ))) : PI :=
  match dpi with
  | none => pi
  | some entries =>
    fun v => if v = w then entries.foldl (fun acc kv => assocSet acc kv.1 kv.2) (pi w) else pi v

/-- Lines 171-195 of `_handle_msg_from_worker`: everything after the
payload `D_recv` is in hand.  Validates the calc type and status, marks
the worker inactive, then either clears `persis_state` (finished
persistent) or ingests/append the output and possibly marks the worker a
waiting persistent one; finally releases blocked workers and merges
`persis_info`. -/
def processDRecv (D : DRecv) (w : ℕ) (W : List WorkerRec) (hist : Hist) (pi : PI) :
    Except String (List WorkerRec × Hist × PI) :=
  if ¬ (D.calc_type = EVAL_SIM_TAG ∨ D.calc_type = EVAL_GEN_TAG) then
    .error ("Aborting, Unknown calculation type received")
  else if ¬ validStatuses.contains D.calc_status then
    .error ("Aborting: Unknown calculation status received")
  else
    match pyIdx w W.length with
    | none => .error ("IndexError: W row out of range")
    | some i =>
      let W1 := wSet W i (fun r => { r with active := 0 })
      let afterStatus : Except String (List WorkerRec × Hist) :=
        if D.calc_status = FINISHED_PERSISTENT_SIM_TAG ∨
           D.calc_status = FINISHED_PERSISTENT_GEN_TAG then
          .ok (wSet W1 i (fun r => { r with persis_state := 0 }), hist)
        else
          match (if D.calc_type = EVAL_SIM_TAG then update_history_f D hist else .ok hist) with
          | .error e => .error e
          | .ok h1 =>
            let h2 := if D.calc_type = EVAL_GEN_TAG then update_history_x_in w D.calc_out h1 else h1
            let W2 := if persistentOf D then
                wSet W1 i (fun r => { r with persis_state := D.calc_type }) else W1
            .ok (W2, h2)
      match afterStatus with
      | .error e => .error e
      | .ok (W2, h2) =>
        match unblockWorkers (blockingOf D) W2 with
        | .error e => .error e
        | .ok W3 => .ok (W3, h2, mergePersis pi w D.persis_info)

/-! ## Corrupt-message recovery and the receive loop -/

/-- `_handle_msg_from_worker` (lines 151-195), with the receive outcome
made explicit: `incoming` is the result of `comm.recv` (an `error` is a
raised decoding exception).  On error the manager runs
`_man_request_pkl_dump_on_error` (lines 127-135): it sends
`MAN_SIGNAL_REQ_PICKLE_DUMP` on the `STOP` tag, re-receives the dump file
path `pklPath`, loads the payload from the file system `fs` and removes
the file.  Returns the updated file system, the control messages sent, and
the updated registry, history and `persis_info`. -/
def handle_msg_from_worker (incoming : Except String DRecv) (pklPath : String)
    (fs : String → Option DRecv) (w : ℕ) (W : List WorkerRec) (hist : Hist) (pi : PI) :
    Except String ((String → Option DRecv) × List Msg × List WorkerRec × Hist × PI) :=
  match incoming with
  | .ok D =>
    match processDRecv D w W hist pi with
    | .error e => .error e
    | .ok (W1, h1, p1) => .ok (fs, [], W1, h1, p1)
  | .error _ =>
    let reqMsg : Msg := ⟨w, STOP_TAG, .signal MAN_SIGNAL_REQ_PICKLE_DUMP⟩
    match fs pklPath with
    | none => .error ("pickle load failed")
    | some D =>
      let fs1 : String → Option DRecv := fun p => if p = pklPath then none else fs p
      match processDRecv D w W hist pi with
      | .error e => .error e
      | .ok (W1, h1, p1) => .ok (fs1, [reqMsg], W1, h1, p1)

/-- The pending channels: for each worker id the FIFO of messages it has
ready for the manager, each either a payload or a decoding failure. -/
abbrev Queues := ℕ → List (Except String DRecv)

/-- Pop the head of worker `w`'s channel. -/
def popQ (qs : Queues) (w : ℕ) : Queues :=
  fun v => if v = w then (qs w).tail else qs v

/-- The full state threaded through the manager's receive machinery. -/
structure DrainState where
  qs : Queues
  W : List WorkerRec
  hist : Hist
  pi : PI
  msgs : List Msg
  fs : String → Option DRecv
  pklPath : String

/-- `W['worker_id'][W['active'] > 0]`: ids of the active workers. -/
def activeIds (W : List WorkerRec) : List ℕ :=
  (W.filter (fun r => r.active != 0)).map (fun r => r.worker_id)

/-- One `for w in W['worker_id'][W['active'] > 0]` pass of
`receive_from_sim_and_gen` (lines 207-212): probe each listed worker and
handle a message when one is pending.  Returns the `new_stuff` flag. -/
def drainWorkerList : List ℕ → DrainState → Except String (Bool × DrainState)
  | [], st => .ok (false, st)
  | w :: ws, st =>
    match st.qs w with
    | [] => drainWorkerList ws st
    | item :: _ =>
      match handle_msg_from_worker item st.pklPath st.fs w st.W st.hist st.pi with
      | .error e => .error e
      | .ok (fs1, ms, W1, h1, p1) =>
        match drainWorkerList ws
            { st with qs := popQ st.qs w, W := W1, hist := h1, pi := p1,
                      msgs := st.msgs ++ ms, fs := fs1 } with
        | .error e => .error e
        | .ok (_, st1) => .ok (true, st1)

/-- The `while new_stuff and any(W['active'])` loop of
`receive_from_sim_and_gen` (lines 206-212), with explicit fuel standing in
for the unbounded spin (`none` = fuel exhausted).  The periodic
`save_every_k` snapshots are file output only and carry no state. -/
def receiveLoop : ℕ → DrainState → Except String (Option DrainState)
  | 0, _ => .ok none
  | fuel + 1, st =>
    if st.W.any (fun r => r.active != 0) then
      match drainWorkerList (activeIds st.W) st with
      | .error e => .error e
      | .ok (new_stuff, st1) =>
        if new_stuff then receiveLoop fuel st1 else .ok (some st1)
    else .ok (some st)

/-! ## Shutdown (`libE_manager.final_receive_and_kill`) -/

/-- The kill loop of lines 327-330: `MAN_SIGNAL_FINISH` on the `STOP` tag
to every `worker_id` in `W`. -/
def killMsgs (W : List WorkerRec) : List Msg :=
  W.map (fun r => ⟨r.worker_id, STOP_TAG, .signal MAN_SIGNAL_FINISH⟩)

/-- `final_receive_and_kill` (lines 296-333).  `times k` is the value of
`time.time()` at the `k`-th termination re-check; the receives discarded
on the timeout path (lines 320-323) do not change manager state.  Returns
the final `persis_info`, the `exit_flag`, and all messages sent (drain
recoveries followed by the kill loop); `none` when the fuel for the
unbounded `while` runs out. -/
def final_receive_and_kill : ℕ → ℕ → DrainState → ExitCriteria → ℚ → (ℕ → ℚ) → ℕ →
    Except String (Option (PI × ℕ × List Msg))
  | 0, _, _, _, _, _, _ => .ok none
  | fuel + 1, rfuel, st, ec, start_time, times, k =>
    if st.W.any (fun r => r.active != 0) then
      match receiveLoop rfuel st with
      | .error e => .error e
      | .ok none => .ok none
      | .ok (some st1) =>
        if termination_test st1.hist ec start_time (times k) = 2 ∧
           st1.W.any (fun r => r.active != 0) then
          .ok (some (st1.pi, 2, st1.msgs ++ killMsgs st1.W))
        else
          final_receive_and_kill fuel rfuel st1 ec start_time times (k + 1)
    else .ok (some (st.pi, 0, st.msgs ++ killMsgs st.W))

/-- The worker registry built by `initialize` (lines 286-293): `N` idle
workers with ids `1..N`. -/
def initW (N : ℕ) : List WorkerRec :=
  (List.range N).map (fun k => { worker_id := k + 1 })

/-- The messages `libE_mpi_manager` (libE.py lines 183-200) causes to be
sent to the workers, as a function of the outcome of the manager run: a
normal return has sent its shutdown messages inside
`final_receive_and_kill`, while the `except` path dumps the history and
aborts the transport (`comms_abort`) without sending any worker message. -/
def libE_mpi_manager_worker_msgs (outcome : Except String (PI × ℕ × List Msg)) : List Msg :=
  match outcome with
  | .ok out => out.2.2
  | .error _ => []

/-- Count the `MAN_SIGNAL_FINISH`-on-`STOP` messages destined to `w`. -/
def countFinish (msgs : List Msg) (w : ℕ) : ℕ :=
  (msgs.filter (fun m =>
    m.dest == w && m.tag == STOP_TAG && m.payload == .signal MAN_SIGNAL_FINISH)).length

/-- Project the exit flag out of a `final_receive_and_kill` result. -/
def resultFlag (r : Except String (Option (PI × ℕ × List Msg))) : Option ℕ :=
  match r with
  | .ok (some out) => some out.2.1
  | _ => none

/-! ## The persistent-APOSMM allocator (`alloc_funcs/persistent_aposmm_alloc.py`) -/

/-- The simulation spec fields used by the allocator: the `in` field list
and the names of the declared `out` fields. -/
structure SimSpecs where
  inn : List String := []
  out : List String := []
deriving Repr, DecidableEq, Inhabited

/-- The generator spec fields used by the allocator. -/
structure GenSpecs where
  inn : List String := []
  initial_sample_size : ℕ := 0
deriving Repr, DecidableEq, Inhabited

/-- Modelled from the spec: `avail_worker_ids(W, persistent=...)` of
`alloc_funcs/support.py` (not among the sources).  Idle workers (§4.7),
split by whether they are in persistent mode. -/
def avail_worker_ids (W : List WorkerRec) (persistent : Bool) : List ℕ :=
  if persistent then
    (W.filter (fun r => r.active == 0 && r.persis_state != 0)).map (fun r => r.worker_id)
  else
    (W.filter (fun r => r.active == 0 && r.persis_state == 0)).map (fun r => r.worker_id)

/-- Modelled from the spec: `count_persis_gens(W)` of
`alloc_funcs/support.py`: the number of workers in a persistent generator
state. -/
def count_persis_gens (W : List WorkerRec) : ℕ :=
  (W.filter (fun r => r.persis_state == EVAL_GEN_TAG)).length

/-- Modelled from the spec: `gen_work(Work, i, H_fields, H_rows,
persis_info, persistent=...)` of `alloc_funcs/support.py` builds the
`EVAL_GEN` work unit for worker `i` (§3.3). -/
def gen_work (Work : List (ℕ × WorkUnit)) (i : ℕ) (H_fields : List String)
    (H_rows : List ℕ) (pi_i : List (String × ℚ)) (persistent : Bool) :
    List (ℕ × WorkUnit) :=
  Work ++ [(i, { tag := EVAL_GEN_TAG, H_fields := H_fields, persis_info := pi_i,
                 libE_info := { H_rows := H_rows, persistent := persistent } })]

/-- Modelled from the spec: `sim_work` of `alloc_funcs/support.py` builds
the `EVAL_SIM` work unit for worker `i`. -/
def sim_work (Work : List (ℕ × WorkUnit)) (i : ℕ) (H_fields : List String)
    (H_rows : List ℕ) (pi_i : List (String × ℚ)) : List (ℕ × WorkUnit) :=
  Work ++ [(i, { tag := EVAL_SIM_TAG, H_fields := H_fields,
                 persis_info := pi_i, libE_info := { H_rows := H_rows } })]

/-- `sum(H['returned'])`. -/
def countReturned (H : List Row) : ℕ := (H.filter (fun r => r.returned)).length

/-- The first loop of `persistent_aposmm_alloc` (lines 23-37): for each
available persistent worker `i`, once the initial sample is complete, take
the boolean mask `gen_inds = (H['gen_worker'] == i)`, compress `H` by it,
and compute `np.where` of `returned & ~given_back` **on the compressed
array**; the resulting positions are used both as the `H_rows` of the
generator work unit and to set `given_back`. -/
def persisLoop (ss : SimSpecs) (gs : GenSpecs) (pis : PI) :
    List ℕ → List (ℕ × WorkUnit) × List Row → List (ℕ × WorkUnit) × List Row
  | [], acc => acc
  | i :: rest, (Work, H) =>
    if countReturned H < gs.initial_sample_size then persisLoop ss gs pis rest (Work, H)
    else
      let sub := H.filter (fun r => r.gen_worker == i)
      let inds_to_give := (List.range sub.length).filter
        (fun j => (sub.getD j default).returned && !(sub.getD j default).given_back)
      if inds_to_give.isEmpty then persisLoop ss gs pis rest (Work, H)
      else
        let fields := ss.inn ++ ss.out ++ [("sim_id"), ("x_on_cube")]
        let Work1 := gen_work Work i fields inds_to_give (pis i) true
        let H1 := inds_to_give.foldl
          (fun h r => h.set r { (h.getD r default) with given_back := true }) H
        persisLoop ss gs pis rest (Work1, H1)

/-- The second loop of `persistent_aposmm_alloc` (lines 39-52): send the
oldest not-yet-given point to each available non-persistent worker, else
start up to one persistent generator. -/
def simLoop (ss : SimSpecs) (gs : GenSpecs) (pis : PI) :
    List ℕ → List (ℕ × WorkUnit) × List Bool × ℕ → List (ℕ × WorkUnit)
  | [], (Work, _, _) => Work
  | i :: rest, (Work, task_avail, gen_count) =>
    match task_avail.findIdx? (fun b => b) with
    | some idx =>
      simLoop ss gs pis rest
        (sim_work Work i ss.inn [idx] (pis i), task_avail.set idx false, gen_count)
    | none =>
      if gen_count = 0 then
        simLoop ss gs pis rest (gen_work Work i gs.inn [] (pis i) true, task_avail, gen_count + 1)
      else simLoop ss gs pis rest (Work, task_avail, gen_count)

/-- `persistent_aposmm_alloc(W, H, sim_specs, gen_specs, persis_info)`:
returns the work map and the (locally mutated) trimmed history the
allocator was handed. -/
def persistent_aposmm_alloc (W : List WorkerRec) (H : List Row)
    (ss : SimSpecs) (gs : GenSpecs) (pis : PI) : List (ℕ × WorkUnit) × List Row :=
  let gen_count := count_persis_gens W
  let fstLoop := persisLoop ss gs pis (avail_worker_ids W true) ([], H)
  let Work2 := simLoop ss gs pis (avail_worker_ids W false)
    (fstLoop.1, fstLoop.2.map (fun r => !r.given), gen_count)
  (Work2, fstLoop.2)

/-- The allocation step of `manager_main` (lines 52-53): the allocator is
called on the registry and on `hist.trim_H()`; the manager keeps only the
returned work map and `persis_info` and never stores the allocator's view
of the history back. -/
def manager_alloc_step (hist : Hist) (W : List WorkerRec)
    (ss : SimSpecs) (gs : GenSpecs) (pis : PI) :
    Hist × List (ℕ × WorkUnit) × List Row :=
  let out := persistent_aposmm_alloc W (trim_H hist) ss gs pis
  (hist, out.1, out.2)

/-! ## `JobController.job_partition` (`controller.py` lines 170-211) -/

/-- `JobController.job_partition(num_procs, num_nodes, ranks_per_node,
machinefile)`: python ints and float divisions are modelled in `ℚ`; a
raised `JobControllerException` (or `ZeroDivisionError`) is an `error`. -/
def job_partition (num_procs num_nodes ranks_per_node : Option ℚ)
    (machinefile : Option String) : Except String (Option ℚ × Option ℚ × Option ℚ) :=
  match machinefile with
  | some _ => .ok (none, none, none)
  | none =>
    match num_procs, num_nodes, ranks_per_node with
    | some p, some n, some r =>
      if p ≠ n * r then .error ("num_procs does not equal num_nodes*ranks_per_node")
      else .ok (some p, some n, some r)
    | none, n?, r? =>
      match n?, r? with
      | some n, some r => .ok (some (n * r), some n, some r)
      | _, _ => .error ("Must set either num_procs or num_nodes/ranks_per_node or machinefile")
    | some p, none, none => .ok (some p, some 1, some p)
    | some p, none, some r =>
      if r = 0 then .error ("ZeroDivisionError")
      else .ok (some p, some (p / r), some r)
    | some p, some n, none =>
      if n = 0 then .error ("ZeroDivisionError")
      else .ok (some p, some n, some (p / n))

/-! ## Concrete instances used in witnesses and counterexamples -/

/-- Read a history row (default row out of range). -/
def rAt (rows : List Row) (i : ℕ) : Row := rows.getD i default

/-- The worker ids of the registry, in order. -/
def mapWid (W : List WorkerRec) : List ℕ := W.map (fun r => r.worker_id)

/-! ## Concrete instances used by the witnesses -/

/-- A two-row history with one user column `x`, nothing dispatched yet. -/
def histC2 : Hist :=
  { rows := [{}, {}], vals := fun _ => [], fieldNames := ["x"],
    index := 2, given_count := 0, sim_count := 0, offset := 0 }

/-- A persistent `EVAL_SIM` work unit on row 0, blocking worker 2. -/
def workC2 : WorkUnit :=
  { tag := EVAL_SIM_TAG, H_fields := ["x"],
    libE_info := { H_rows := [0], persistent := true, blocking := some [2] } }

/-- Three idle workers. -/
def regC2 : List WorkerRec :=
  [{ worker_id := 1 }, { worker_id := 2 }, { worker_id := 3 }]

/-- The registry after dispatching `workC2` to worker 1. -/
def regC2' : List WorkerRec :=
  [{ worker_id := 1, active := EVAL_SIM_TAG, persis_state := EVAL_SIM_TAG },
   { worker_id := 2, active := 1, blocked := true },
   { worker_id := 3 }]

/-- The history after marking row 0 dispatched to worker 1 at time 0. -/
def histC2' : Hist :=
  { rows := [{ given := true, given_time := some 0, sim_worker := 1 }, {}],
    vals := fun _ => [], fieldNames := ["x"],
    index := 2, given_count := 1, sim_count := 0, offset := 0 }

/-- The two messages of the dispatch: the work unit and the history slice. -/
def msgsC2 : List Msg :=
  [⟨1, EVAL_SIM_TAG, .workUnit workC2⟩, ⟨1, 0, .hSlice ["x"] [0]⟩]

/-- A finished-persistent-sim result payload. -/
def dC4 : DRecv := { calc_type := EVAL_SIM_TAG, calc_status := FINISHED_PERSISTENT_SIM_TAG }

/-- One worker, busy in persistent simulator mode. -/
def regC4 : List WorkerRec :=
  [{ worker_id := 1, active := EVAL_SIM_TAG, persis_state := EVAL_SIM_TAG }]

/-- The same worker, idle with its persistent state cleared. -/
def regC4' : List WorkerRec := [{ worker_id := 1 }]

/-- An empty history. -/
def histC4 : Hist :=
  { rows := [], vals := fun _ => [], fieldNames := [],
    index := 0, given_count := 0, sim_count := 0, offset := 0 }

/-- Empty per-worker scratch. -/
def piC4 : PI := fun _ => []

/-- A file system holding one pickle dump. -/
def fsC9 : String → Option DRecv :=
  fun p => if p = "dump.pkl" then some dC4 else none

/-- One idle worker, empty channels: shutdown state for the C7 analysis. -/
def stC7 : DrainState :=
  ⟨fun _ => [], [{ worker_id := 1 }], histC4, piC4, [], fun _ => none, "dump.pkl"⟩

/-- The same state but with worker 1 still active in a simulation. -/
def stC7b : DrainState :=
  ⟨fun _ => [], [{ worker_id := 1, active := EVAL_SIM_TAG }], histC4, piC4, [],
   fun _ => none, "dump.pkl"⟩

/-- Exit criteria with a zero wallclock budget: the timeout is tripped at
any non-negative elapsed time. -/
def ecC7 : ExitCriteria := { elapsed_wallclock_time := some 0 }

/-- A history whose row 0 was prepended from `H0` (generated by a prior
run: returned and already given back) and whose row 1 was produced by the
persistent generator on worker 1 and has returned but not yet been given
back. -/
def HC6 : List Row :=
  [{ sim_id := 0, given := true, given_time := some 1, sim_worker := 1,
     gen_worker := 0, returned := true, given_back := true },
   { sim_id := 1, given := true, given_time := some 2, sim_worker := 1,
     gen_worker := 1, returned := true, given_back := false }]

/-- Worker 1, an idle persistent generator. -/
def WC6 : List WorkerRec := [{ worker_id := 1, persis_state := EVAL_GEN_TAG }]

/-- Simulation specs with one input and one output column. -/
def ssC6 : SimSpecs := { inn := ["x"], out := ["f"] }

/-- Generator specs with a one-point initial sample. -/
def gsC6 : GenSpecs := { inn := ["x"], initial_sample_size := 1 }

/-- The work unit `persistent_aposmm_alloc` actually builds on `HC6`:
its `H_rows` holds positions taken from the compressed array
`H[H['gen_worker'] == 1]`, used as indices into the full `H`. -/
def workBugC6 : WorkUnit :=
  { tag := EVAL_GEN_TAG, H_fields := ["x", "f", "sim_id", "x_on_cube"],
    libE_info := { H_rows := [0], persistent := true } }

/-- A history the allocator locally mutates: one returned row of gen 1,
not yet given back. -/
def HC5 : List Row :=
  [{ sim_id := 0, given := true, given_time := some 1, sim_worker := 1,
     gen_worker := 1, returned := true, given_back := false }]

/-- A work unit requesting an unknown column with no rows. -/
def workC8 : WorkUnit :=
  { tag := EVAL_GEN_TAG, H_fields := ["bogus"], libE_info := { H_rows := [] } }

/-- The same request but with a non-empty row list. -/
def workC8b : WorkUnit :=
  { tag := EVAL_GEN_TAG, H_fields := ["bogus"], libE_info := { H_rows := [0] } }

/-- One idle worker. -/
def regC8 : List WorkerRec := [{ worker_id := 1 }]


/-- Shutdown entry state for the C3 witness: worker 1 is still active in
a persistent simulation and has a finished-persistent result pending on
its channel, so the final receive must drain it before the kill loop. -/
def stC3 : DrainState :=
  ⟨fun v => if v = 1 then [.ok dC4] else [],
   [{ worker_id := 1, active := EVAL_SIM_TAG, persis_state := EVAL_SIM_TAG }],
   histC4, piC4, [], fun _ => none, "dump.pkl"⟩

/-! ## Claim C1: the termination predicate -/

lemma wallCond_iff (ec : ExitCriteria) (start_time now : ℚ) :
    ((match ec.elapsed_wallclock_time with
      | some t => decide (now - start_time ≥ t)
      | none => false) = true) ↔ wallCond ec start_time now := by
  cases h : ec.elapsed_wallclock_time <;> simp [wallCond, h]

lemma simMaxCond_iff (hist : Hist) (ec : ExitCriteria) :
    ((match ec.sim_max with
      | some m => decide (hist.given_count ≥ m + hist.offset)
      | none => false) = true) ↔ simMaxCond hist ec := by
  cases h : ec.sim_max <;> simp [simMaxCond, h]

lemma genMaxCond_iff (hist : Hist) (ec : ExitCriteria) :
    ((match ec.gen_max with
      | some m => decide (hist.index ≥ m + hist.offset)
      | none => false) = true) ↔ genMaxCond hist ec := by
  cases h : ec.gen_max <;> simp [genMaxCond, h]

lemma stopValCond_iff (hist : Hist) (ec : ExitCriteria) :
    ((match ec.stop_val with
      | some kv => ((hist.vals kv.1).take hist.index).any (fun o =>
          match o with
          | some x => decide (x ≤ kv.2)
          | none => false)
      | none => false) = true) ↔ stopValCond hist ec := by
  cases h : ec.stop_val with
  | none => simp [stopValCond, h]
  | some kv =>
    obtain ⟨f, thr⟩ := kv
    simp only [stopValCond, h, List.any_eq_true, Option.some.injEq, Prod.mk.injEq]
    constructor
    · rintro ⟨o, ho, hp⟩
      cases o with
      | none => simp at hp
      | some x =>
        exact ⟨f, thr, x, ⟨rfl, rfl⟩, ho, by simpa using hp⟩
    · rintro ⟨f', thr', v, ⟨rfl, rfl⟩, hv, hle⟩
      exact ⟨some v, hv, by simpa using hle⟩

/-- C1.  The termination predicate returns `2` exactly when
`elapsed_wallclock_time` is set and `now - start_time` has reached it
(this check coming first); `1` exactly when the wallclock clause fails but
one of the `sim_max`, `gen_max` or `stop_val` clauses holds; and the false
value `0` exactly when no clause holds. -/
theorem termination_test_matches_spec (hist : Hist) (ec : ExitCriteria)
    (start_time now : ℚ) :
    (termination_test hist ec start_time now = 2 ↔ wallCond ec start_time now) ∧
    (termination_test hist ec start_time now = 1 ↔
      ¬ wallCond ec start_time now ∧
        (simMaxCond hist ec ∨ genMaxCond hist ec ∨ stopValCond hist ec)) ∧
    (termination_test hist ec start_time now = 0 ↔
      ¬ wallCond ec start_time now ∧ ¬ simMaxCond hist ec ∧
        ¬ genMaxCond hist ec ∧ ¬ stopValCond hist ec) := by
  have hw := wallCond_iff ec start_time now
  have hs := simMaxCond_iff hist ec
  have hg := genMaxCond_iff hist ec
  have hv := stopValCond_iff hist ec
  unfold termination_test
  split_ifs with h1 h2 h3 h4
  · rw [hw] at h1
    refine ⟨by simp [h1], by simp [h1], by simp [h1]⟩
  · rw [hw] at h1; rw [hs] at h2
    refine ⟨by simp [h1], by simp [h1, h2], by simp [h2]⟩
  · rw [hw] at h1; rw [hs] at h2; rw [hg] at h3
    refine ⟨by simp [h1], by simp [h1, h3], by simp [h3]⟩
  · rw [hw] at h1; rw [hs] at h2; rw [hg] at h3; rw [hv] at h4
    refine ⟨by simp [h1], by simp [h1, h4], by simp [h4]⟩
  · rw [hw] at h1; rw [hs] at h2; rw [hg] at h3; rw [hv] at h4
    refine ⟨by simp [h1], by simp [h1, h2, h3, h4], by simp [h1, h2, h3, h4]⟩

/-! ## Claim C10: `JobController.job_partition` -/

/-- C10.  The case analysis of `job_partition`: a machinefile overrides
everything; all three counts given are checked against
`num_procs = num_nodes * ranks_per_node`; no `num_procs` requires both
`num_nodes` and `ranks_per_node`; and `num_procs` alone yields one node
holding all the ranks. -/
theorem job_partition_cases :
    (∀ (p n r : Option ℚ) (f : String),
        job_partition p n r (some f) = .ok (none, none, none)) ∧
    (∀ p n r : ℚ, p ≠ n * r →
        job_partition (some p) (some n) (some r) none =
          .error ("num_procs does not equal num_nodes*ranks_per_node")) ∧
    (∀ p n r : ℚ, p = n * r →
        job_partition (some p) (some n) (some r) none = .ok (some p, some n, some r)) ∧
    (∀ n? r? : Option ℚ, n? = none ∨ r? = none →
        job_partition none n? r? none =
          .error ("Must set either num_procs or num_nodes/ranks_per_node or machinefile")) ∧
    (∀ n r : ℚ,
        job_partition none (some n) (some r) none = .ok (some (n * r), some n, some r)) ∧
    (∀ p : ℚ, job_partition (some p) none none none = .ok (some p, some 1, some p)) := by
  refine ⟨?_, ?_, ?_, ?_, ?_, ?_⟩
  · intro p n r f; rfl
  · intro p n r h; simp [job_partition, h]
  · intro p n r h; simp [job_partition, h]
  · rintro n? r? (rfl | rfl)
    · rfl
    · cases n? <;> rfl
  · intro n r; rfl
  · intro p; rfl

/-- Witness for C10 at concrete inputs: `num_procs` unset and `num_nodes`
unset raises the exception. -/
theorem job_partition_cases_witness :
    job_partition none none (some 3) none =
      .error ("Must set either num_procs or num_nodes/ranks_per_node or machinefile") :=
  job_partition_cases.2.2.2.1 none (some 3) (Or.inl rfl)

/-! ## Registry and history update lemmas -/

lemma pyIdx_lt {w len j : ℕ} (h : pyIdx w len = some j) : j < len := by
  unfold pyIdx at h
  split_ifs at h with h1 h2 h3 <;> simp_all <;> omega

lemma wSet_length (W : List WorkerRec) (i : ℕ) (f : WorkerRec → WorkerRec) :
    (wSet W i f).length = W.length := by
  simp [wSet]

lemma wAt_wSet_self {W : List WorkerRec} {i : ℕ} (f : WorkerRec → WorkerRec)
    (h : i < W.length) : wAt (wSet W i f) i = f (wAt W i) := by
  simp [wAt, wSet, List.getD, List.getElem?_set_self, h]

lemma wAt_wSet_ne {W : List WorkerRec} {i j : ℕ} (f : WorkerRec → WorkerRec)
    (h : j ≠ i) : wAt (wSet W i f) j = wAt W j := by
  simp [wAt, wSet, List.getD, List.getElem?_set_ne (Ne.symm h)]

lemma blockWorkers_length {bs : List ℕ} {W W1 : List WorkerRec}
    (h : blockWorkers bs W = .ok W1) : W1.length = W.length := by
  induction bs generalizing W with
  | nil => simp [blockWorkers] at h; simp [h]
  | cons b rest ih =>
    unfold blockWorkers at h
    split at h
    · simp at h
    · rename_i j hpy
      split_ifs at h with hact
      rw [ih h, wSet_length]

lemma blockWorkers_preserves_active {bs : List ℕ} {W W1 : List WorkerRec}
    (h : blockWorkers bs W = .ok W1) :
    ∀ j, (wAt W j).active ≠ 0 → wAt W1 j = wAt W j := by
  induction bs generalizing W with
  | nil => simp [blockWorkers] at h; simp [h]
  | cons b rest ih =>
    unfold blockWorkers at h
    split at h
    · simp at h
    · rename_i i hpy
      split_ifs at h with hact
      intro j hj
      have hji : j ≠ i := by
        intro he; rw [he] at hj; exact hj hact
      have := ih h j (by rwa [wAt_wSet_ne _ hji])
      rw [this, wAt_wSet_ne _ hji]

lemma blockWorkers_spec {bs : List ℕ} {W W1 : List WorkerRec}
    (h : blockWorkers bs W = .ok W1) :
    ∀ b ∈ bs, ∃ j, pyIdx b W.length = some j ∧ (wAt W j).active = 0 ∧
      (wAt W1 j).blocked = true ∧ (wAt W1 j).active = 1 := by
  induction bs generalizing W with
  | nil => simp
  | cons b rest ih =>
    unfold blockWorkers at h
    split at h
    · simp at h
    · rename_i i hpy
      split_ifs at h with hact
      intro b' hb'
      have hlen := wSet_length W i (fun r => { r with blocked := true, active := 1 })
      have hilt : i < W.length := pyIdx_lt hpy
      rcases List.mem_cons.mp hb' with rfl | hmem
      · refine ⟨i, hpy, hact, ?_⟩
        have hset := wAt_wSet_self (fun r => { r with blocked := true, active := 1 }) hilt
        have hpres := blockWorkers_preserves_active h i (by rw [hset]; simp)
        rw [hpres, hset]
        exact ⟨rfl, rfl⟩
      · obtain ⟨j, hpy', hact', hfin⟩ := ih h b' hmem
        rw [hlen] at hpy'
        have hji : j ≠ i := by
          intro he
          rw [he, wAt_wSet_self _ hilt] at hact'
          simp at hact'
        rw [wAt_wSet_ne _ hji] at hact'
        exact ⟨j, hpy', hact', hfin⟩

lemma update_history_x_out_preserves {rows : List ℕ} {w : ℕ} {now : ℚ}
    {hist hist1 : Hist} (h : update_history_x_out rows w now hist = .ok hist1) :
    ∀ j, (rAt hist.rows j).given = true → rAt hist1.rows j = rAt hist.rows j := by
  induction rows generalizing hist with
  | nil => simp [update_history_x_out] at h; simp [h]
  | cons r rest ih =>
    unfold update_history_x_out at h
    split at h
    · simp at h
    · rename_i row hget
      split_ifs at h with hgiven
      · intro j hj
        have hjr : j ≠ r := by
          intro he
          rw [he] at hj
          have heq : rAt hist.rows r = row := by
            rw [List.get?_eq_getElem?] at hget
            simp [rAt, List.getD, hget]
          rw [heq] at hj
          exact hgiven hj
        have hrow : rAt (hist.rows.set r (markRow row w now)) j = rAt hist.rows j := by
          simp [rAt, List.getD, List.getElem?_set_ne (Ne.symm hjr)]
        have := ih h j (by simpa [hrow] using hj)
        simpa [hrow] using this

lemma update_history_x_out_spec {rows : List ℕ} {w : ℕ} {now : ℚ}
    {hist hist1 : Hist} (h : update_history_x_out rows w now hist = .ok hist1) :
    ∀ r ∈ rows, (rAt hist1.rows r).given = true ∧ (rAt hist1.rows r).sim_worker = w := by
  induction rows generalizing hist with
  | nil => simp
  | cons r rest ih =>
    unfold update_history_x_out at h
    split at h
    · simp at h
    · rename_i row hget
      split_ifs at h with hgiven
      have hrlt : r < hist.rows.length := (List.get?_eq_some.mp hget).1
      have hset : rAt (hist.rows.set r (markRow row w now)) r = markRow row w now := by
        simp [rAt, List.getD, List.getElem?_set_self, hrlt]
      have hgead : (rAt (hist.rows.set r (markRow row w now)) r).given = true := by
        rw [hset]; rfl
      have hpres := update_history_x_out_preserves h r hgead
      have hhead : rAt hist1.rows r = markRow row w now := hpres.trans hset
      intro r' hr'
      rcases List.mem_cons.mp hr' with rfl | hmem
      · rw [hhead]
        exact ⟨rfl, rfl⟩
      · exact ih h r' hmem

/-! ## Claim C2: dispatch updates -/

lemma tag_ne_zero {t : ℕ} (htag : t = EVAL_SIM_TAG ∨ t = EVAL_GEN_TAG) : t ≠ 0 := by
  rcases htag with rfl | rfl <;> simp [EVAL_SIM_TAG, EVAL_GEN_TAG]

/-- The post-`slice` tail of the dispatch: registry updates, blocking
reservation and the `EVAL_SIM` history marking.  Splitting it off keeps
the analysis of `send_to_worker_and_update_active_and_idle` in one
place. -/
lemma send_tail_spec (hist : Hist) (Work : WorkUnit) (w : ℕ)
    (W W1 : List WorkerRec) (now : ℚ) (hist1 : Hist) (i : ℕ)
    (htag : Work.tag = EVAL_SIM_TAG ∨ Work.tag = EVAL_GEN_TAG)
    (hilt : i < W.length)
    (hbw : ∃ W3, blockWorkers (Work.libE_info.blocking.getD [])
        (if Work.libE_info.persistent then
          wSet (wSet W i (fun r => { r with active := Work.tag })) i
            (fun r => { r with persis_state := Work.tag })
        else wSet W i (fun r => { r with active := Work.tag })) = .ok W3 ∧ W1 = W3)
    (hhist : Work.tag = EVAL_SIM_TAG →
        update_history_x_out Work.libE_info.H_rows w now hist = .ok hist1) :
    (wAt W1 i).active = Work.tag ∧
    (Work.libE_info.persistent = true → (wAt W1 i).persis_state = Work.tag) ∧
    (∀ b ∈ Work.libE_info.blocking.getD [], ∃ j, pyIdx b W.length = some j ∧
      (wAt W j).active = 0 ∧ (wAt W1 j).blocked = true ∧ (wAt W1 j).active = 1) ∧
    (Work.tag = EVAL_SIM_TAG → ∀ r ∈ Work.libE_info.H_rows,
      (rAt hist1.rows r).given = true ∧ (rAt hist1.rows r).sim_worker = w) := by
  obtain ⟨W3, hbw, rfl⟩ := hbw
  set W2 := (if Work.libE_info.persistent then
      wSet (wSet W i (fun r => { r with active := Work.tag })) i
        (fun r => { r with persis_state := Work.tag })
    else wSet W i (fun r => { r with active := Work.tag })) with hW2
  have hlen1 : (wSet W i (fun r => { r with active := Work.tag })).length = W.length :=
    wSet_length W i _
  have hW2len : W2.length = W.length := by
    rw [hW2]
    split <;> simp [wSet_length, hlen1]
  have hW2i_act : (wAt W2 i).active = Work.tag := by
    rw [hW2]
    split
    · rw [wAt_wSet_self _ (by rw [hlen1]; exact hilt), wAt_wSet_self _ hilt]
    · rw [wAt_wSet_self _ hilt]
  have hW2i_per : Work.libE_info.persistent = true → (wAt W2 i).persis_state = Work.tag := by
    intro hp
    rw [hW2, if_pos hp, wAt_wSet_self _ (by rw [hlen1]; exact hilt)]
  have hW2_ne : ∀ j, j ≠ i → wAt W2 j = wAt W j := by
    intro j hj
    rw [hW2]
    split
    · rw [wAt_wSet_ne _ hj, wAt_wSet_ne _ hj]
    · rw [wAt_wSet_ne _ hj]
  have htagne : Work.tag ≠ 0 := tag_ne_zero htag
  have hfix := blockWorkers_preserves_active hbw i (by rw [hW2i_act]; exact htagne)
  refine ⟨?_, ?_, ?_, ?_⟩
  · rw [hfix, hW2i_act]
  · intro hp
    rw [hfix]
    exact hW2i_per hp
  · intro b hb
    obtain ⟨j, hpy', hact', hfin⟩ := blockWorkers_spec hbw b hb
    rw [hW2len] at hpy'
    have hji : j ≠ i := by
      intro he
      rw [he, hW2i_act] at hact'
      exact htagne hact'
    rw [hW2_ne j hji] at hact'
    exact ⟨j, hpy', hact', hfin⟩
  · intro hsim r hr
    exact update_history_x_out_spec (hhist hsim) r hr

/-- C2.  A successful dispatch to worker `w` had `W[w-1].active = 0` as a
precondition and afterwards sets `active` to the work tag; a persistent
unit also records the tag in `persis_state`; every id in the blocking set
was idle beforehand and ends blocked with `active = 1`; and an `EVAL_SIM`
unit has its rows marked given (with the sending worker recorded) through
`mark_dispatched`. -/
theorem send_to_worker_updates_registry_and_history
    (hist : Hist) (Work : WorkUnit) (w : ℕ) (W W1 : List WorkerRec)
    (now : ℚ) (hist1 : Hist) (msgs : List Msg)
    (htag : Work.tag = EVAL_SIM_TAG ∨ Work.tag = EVAL_GEN_TAG)
    (hok : send_to_worker_and_update_active_and_idle hist Work w W now =
      .ok (W1, hist1, msgs)) :
    ∃ i, pyIdx w W.length = some i ∧ (wAt W i).active = 0 ∧
      (wAt W1 i).active = Work.tag ∧
      (Work.libE_info.persistent = true → (wAt W1 i).persis_state = Work.tag) ∧
      (∀ b ∈ Work.libE_info.blocking.getD [], ∃ j, pyIdx b W.length = some j ∧
        (wAt W j).active = 0 ∧ (wAt W1 j).blocked = true ∧ (wAt W1 j).active = 1) ∧
      (Work.tag = EVAL_SIM_TAG → ∀ r ∈ Work.libE_info.H_rows,
        (rAt hist1.rows r).given = true ∧ (rAt hist1.rows r).sim_worker = w) := by
  unfold send_to_worker_and_update_active_and_idle at hok
  by_cases hw0 : w = 0
  · rw [if_pos hw0] at hok
    simp at hok
  rw [if_neg hw0] at hok
  split at hok
  · simp at hok
  rename_i i hpy
  by_cases hactne : (wAt W i).active ≠ 0
  · rw [if_pos hactne] at hok
    simp at hok
  rw [if_neg hactne] at hok
  have hact0 : (wAt W i).active = 0 := not_not.mp hactne
  have hilt : i < W.length := pyIdx_lt hpy
  dsimp only at hok
  split at hok
  · simp at hok
  rename_i msgs' heq
  split at hok
  · simp at hok
  rename_i W3 hbw
  refine ⟨i, hpy, hact0, ?_⟩
  rcases htag with hsim | hgen
  · rw [if_pos hsim] at hok
    split at hok
    · simp at hok
    rename_i hist' hupd
    have hinj := hok
    simp only [Except.ok.injEq, Prod.mk.injEq] at hinj
    obtain ⟨hW1, hh1, -⟩ := hinj
    exact send_tail_spec hist Work w W W1 now hist1 i (Or.inl hsim) hilt
      ⟨W3, hbw, hW1.symm⟩ (fun _ => by rw [← hh1]; exact hupd)
  · rw [if_neg (by rw [hgen]; simp [EVAL_GEN_TAG, EVAL_SIM_TAG])] at hok
    have hinj := hok
    simp only [Except.ok.injEq, Prod.mk.injEq] at hinj
    obtain ⟨hW1, hh1, -⟩ := hinj
    exact send_tail_spec hist Work w W W1 now hist1 i (Or.inr hgen) hilt
      ⟨W3, hbw, hW1.symm⟩ (fun hs => absurd (hgen ▸ hs) (by simp [EVAL_GEN_TAG, EVAL_SIM_TAG]))

/-! ## Claim C4: finished-persistent messages leave the history unchanged -/

lemma unblockWorkers_spec {bs : List ℕ} {W W1 : List WorkerRec}
    (h : unblockWorkers bs W = .ok W1) :
    W1.length = W.length ∧ ∀ j,
      (wAt W1 j).persis_state = (wAt W j).persis_state ∧
      (wAt W1 j).worker_id = (wAt W j).worker_id ∧
      ((wAt W1 j).active = (wAt W j).active ∨ (wAt W1 j).active = 0) := by
  induction bs generalizing W with
  | nil =>
    simp [unblockWorkers] at h
    simp [h]
  | cons b rest ih =>
    unfold unblockWorkers at h
    split at h
    · simp at h
    · rename_i j0 hpy
      have hlt : j0 < W.length := pyIdx_lt hpy
      obtain ⟨hlen, hall⟩ := ih h
      refine ⟨by rw [hlen, wSet_length], ?_⟩
      intro j
      obtain ⟨hp, hw, ha⟩ := hall j
      by_cases hj : j = j0
      · subst hj
        rw [wAt_wSet_self _ hlt] at hp hw ha
        refine ⟨hp, hw, Or.inr ?_⟩
        rcases ha with ha | ha <;> exact ha
      · rw [wAt_wSet_ne _ hj] at hp hw ha
        exact ⟨hp, hw, ha⟩

/-- C4.  Handling a worker message whose status is
`FINISHED_PERSISTENT_SIM` or `FINISHED_PERSISTENT_GEN` marks the sender
idle, clears its persistent state, and leaves the history (with all its
counters) untouched: no ingest and no append happens. -/
theorem finished_persistent_leaves_history_unchanged
    (D : DRecv) (w : ℕ) (W W1 : List WorkerRec) (hist hist1 : Hist) (pi pi1 : PI)
    (hst : D.calc_status = FINISHED_PERSISTENT_SIM_TAG ∨
      D.calc_status = FINISHED_PERSISTENT_GEN_TAG)
    (hok : processDRecv D w W hist pi = .ok (W1, hist1, pi1)) :
    ∃ i, pyIdx w W.length = some i ∧ (wAt W1 i).active = 0 ∧
      (wAt W1 i).persis_state = 0 ∧ hist1 = hist := by
  unfold processDRecv at hok
  split_ifs at hok with hty hstv
  split at hok
  · simp at hok
  rename_i i hpy
  have hilt : i < W.length := pyIdx_lt hpy
  dsimp only at hok
  split at hok
  · simp at hok
  rename_i W3 hub
  simp only [Except.ok.injEq, Prod.mk.injEq] at hok
  obtain ⟨hW1, hh1, -⟩ := hok
  obtain ⟨hlen, hall⟩ := unblockWorkers_spec hub
  obtain ⟨hp, -, ha⟩ := hall i
  have hilt1 : i < (wSet W i (fun r => { r with active := 0 })).length := by
    rw [wSet_length]; exact hilt
  have hself : wAt (wSet (wSet W i (fun r => { r with active := 0 })) i
      (fun r => { r with persis_state := 0 })) i =
      { wAt W i with active := 0, persis_state := 0 } := by
    rw [wAt_wSet_self _ hilt1, wAt_wSet_self _ hilt]
  rw [hself] at hp ha
  refine ⟨i, hpy, ?_, ?_, hh1.symm⟩
  · rw [← hW1]
    rcases ha with ha | ha <;> simpa using ha
  · rw [← hW1]
    simpa using hp

/-! ## Claim C9: pickle-dump recovery -/

/-- C9.  When the receive raises a decoding error, the manager sends
`MAN_SIGNAL_REQ_PICKLE_DUMP` on the `STOP` tag, reads the payload from the
dump file named by the worker, deletes that file, and then handles the
recovered payload exactly as a normally received one: the resulting
registry, history and `persis_info` coincide with the normal-receive
outcome. -/
theorem pickle_dump_recovery (e : String) (pklPath : String)
    (fs : String → Option DRecv) (w : ℕ) (W W1 : List WorkerRec)
    (hist hist1 : Hist) (pi pi1 : PI) (D : DRecv)
    (hfs : fs pklPath = some D)
    (hclean : processDRecv D w W hist pi = .ok (W1, hist1, pi1)) :
    handle_msg_from_worker (.error e) pklPath fs w W hist pi =
      .ok (fun p => if p = pklPath then none else fs p,
           [⟨w, STOP_TAG, .signal MAN_SIGNAL_REQ_PICKLE_DUMP⟩], W1, hist1, pi1) ∧
    handle_msg_from_worker (.ok D) pklPath fs w W hist pi =
      .ok (fs, [], W1, hist1, pi1) ∧
    (fun p => if p = pklPath then none else fs p) pklPath = none := by
  refine ⟨?_, ?_, by simp⟩
  · unfold handle_msg_from_worker
    rw [hfs]
    dsimp only
    rw [hclean]
  · unfold handle_msg_from_worker
    dsimp only
    rw [hclean]

/-- Witness for C2: dispatching `workC2` to worker 1 among three idle
workers, with worker 2 reserved by blocking. -/
theorem send_to_worker_witness :
    ∃ i, pyIdx 1 regC2.length = some i ∧ (wAt regC2 i).active = 0 ∧
      (wAt regC2' i).active = workC2.tag ∧
      (workC2.libE_info.persistent = true → (wAt regC2' i).persis_state = workC2.tag) ∧
      (∀ b ∈ workC2.libE_info.blocking.getD [], ∃ j, pyIdx b regC2.length = some j ∧
        (wAt regC2 j).active = 0 ∧ (wAt regC2' j).blocked = true ∧ (wAt regC2' j).active = 1) ∧
      (workC2.tag = EVAL_SIM_TAG → ∀ r ∈ workC2.libE_info.H_rows,
        (rAt histC2'.rows r).given = true ∧ (rAt histC2'.rows r).sim_worker = 1) :=
  send_to_worker_updates_registry_and_history histC2 workC2 1 regC2 regC2' 0 histC2' msgsC2
    (Or.inl rfl) rfl

/-- Witness for C4: a `FINISHED_PERSISTENT_SIM` message from worker 1. -/
theorem finished_persistent_witness :
    ∃ i, pyIdx 1 regC4.length = some i ∧ (wAt regC4' i).active = 0 ∧
      (wAt regC4' i).persis_state = 0 ∧ histC4 = histC4 :=
  finished_persistent_leaves_history_unchanged dC4 1 regC4 regC4' histC4 histC4 piC4 piC4
    (Or.inl rfl) rfl

/-- Witness for C9: recovery through `dump.pkl` after a decoding error on
the message of worker 1. -/
theorem pickle_dump_recovery_witness :
    handle_msg_from_worker (.error ("decode failure")) "dump.pkl" fsC9 1 regC4 histC4 piC4 =
      .ok (fun p => if p = "dump.pkl" then none else fsC9 p,
           [⟨1, STOP_TAG, .signal MAN_SIGNAL_REQ_PICKLE_DUMP⟩], regC4', histC4, piC4) ∧
    handle_msg_from_worker (.ok dC4) "dump.pkl" fsC9 1 regC4 histC4 piC4 =
      .ok (fsC9, [], regC4', histC4, piC4) ∧
    (fun p => if p = "dump.pkl" then none else fsC9 p) "dump.pkl" = none :=
  pickle_dump_recovery ("decode failure") ("dump.pkl") fsC9 1 regC4 regC4' histC4 histC4
    piC4 piC4 dC4 rfl rfl

/-! ## Claims C3 and C7: shutdown messages and the exit flag -/

lemma mapWid_wSet (W : List WorkerRec) (i : ℕ) (f : WorkerRec → WorkerRec)
    (hf : ∀ r, (f r).worker_id = r.worker_id) : mapWid (wSet W i f) = mapWid W := by
  induction W generalizing i with
  | nil => rfl
  | cons a l ih =>
    cases i with
    | zero => simp [mapWid, wSet, wAt, List.getD, hf]
    | succ n =>
      have : wSet (a :: l) (n + 1) f = a :: wSet l n f := by
        simp [wSet, wAt, List.getD]
      rw [this]
      simp only [mapWid, List.map_cons]
      rw [← mapWid, ← mapWid, ih]

lemma mapWid_unblock {bs : List ℕ} {W W1 : List WorkerRec}
    (h : unblockWorkers bs W = .ok W1) : mapWid W1 = mapWid W := by
  induction bs generalizing W with
  | nil => simp [unblockWorkers] at h; simp [h]
  | cons b rest ih =>
    unfold unblockWorkers at h
    split at h
    · simp at h
    · rename_i j hpy
      rw [ih h]
      exact mapWid_wSet _ _ _ (fun r => rfl)

lemma mapWid_processDRecv {D : DRecv} {w : ℕ} {W W1 : List WorkerRec}
    {hist h1 : Hist} {pi p1 : PI}
    (hok : processDRecv D w W hist pi = .ok (W1, h1, p1)) :
    mapWid W1 = mapWid W := by
  unfold processDRecv at hok
  split_ifs at hok
  all_goals (
    split at hok
    · simp at hok
    · rename_i i hpy
      dsimp only at hok
      first
      | (split at hok
         · simp at hok
         · rename_i W3 hub
           simp only [Except.ok.injEq, Prod.mk.injEq] at hok
           obtain ⟨hW1, -, -⟩ := hok
           rw [← hW1, mapWid_unblock hub]
           simp [mapWid_wSet])
      | (split at hok
         · simp at hok
         · rename_i W2' h2' he1
           split at he1
           · simp at he1
           · rename_i h1' hupd
             simp only [Except.ok.injEq, Prod.mk.injEq] at he1
             obtain ⟨hW2, -⟩ := he1
             split at hok
             · simp at hok
             · rename_i W3 hub
               simp only [Except.ok.injEq, Prod.mk.injEq] at hok
               obtain ⟨hW1, -, -⟩ := hok
               rw [← hW1, mapWid_unblock hub, ← hW2]
               simp [mapWid_wSet]))

lemma handle_msg_mapWid_msgs {incoming : Except String DRecv} {pklPath : String}
    {fs : String → Option DRecv} {w : ℕ} {W W1 : List WorkerRec}
    {hist h1 : Hist} {pi p1 : PI} {fs1 : String → Option DRecv} {ms : List Msg}
    (hok : handle_msg_from_worker incoming pklPath fs w W hist pi =
      .ok (fs1, ms, W1, h1, p1)) :
    mapWid W1 = mapWid W ∧
      ∀ m ∈ ms, m.payload = .signal MAN_SIGNAL_REQ_PICKLE_DUMP := by
  unfold handle_msg_from_worker at hok
  cases incoming with
  | ok D =>
    dsimp only at hok
    split at hok
    · simp at hok
    · rename_i Wp hp pp hpd
      simp only [Except.ok.injEq, Prod.mk.injEq] at hok
      obtain ⟨-, hms, hW1, -, -⟩ := hok
      refine ⟨by rw [← hW1]; exact mapWid_processDRecv hpd, ?_⟩
      intro m hm
      rw [← hms] at hm
      simp at hm
  | error e =>
    try dsimp only at hok
    split at hok
    · simp at hok
    · rename_i D hfs
      try dsimp only at hok
      split at hok
      · simp at hok
      · rename_i Wp hp pp hpd
        simp only [Except.ok.injEq, Prod.mk.injEq] at hok
        obtain ⟨-, hms, hW1, -, -⟩ := hok
        refine ⟨by rw [← hW1]; exact mapWid_processDRecv hpd, ?_⟩
        intro m hm
        rw [← hms] at hm
        simp at hm
        rw [hm]

lemma drainWorkerList_mapWid_msgs {ws : List ℕ} {st : DrainState} {b : Bool}
    {st1 : DrainState} (hok : drainWorkerList ws st = .ok (b, st1)) :
    mapWid st1.W = mapWid st.W ∧
      ∀ m ∈ st1.msgs, m ∈ st.msgs ∨ m.payload = .signal MAN_SIGNAL_REQ_PICKLE_DUMP := by
  induction ws generalizing st b with
  | nil =>
    simp only [drainWorkerList, Except.ok.injEq, Prod.mk.injEq] at hok
    obtain ⟨-, rfl⟩ := hok
    exact ⟨rfl, fun m hm => Or.inl hm⟩
  | cons w ws ih =>
    unfold drainWorkerList at hok
    split at hok
    · exact ih hok
    · rename_i item rest hq
      split at hok
      · simp at hok
      · rename_i fs1 ms Wn hn pn hh
        split at hok
        · simp at hok
        · rename_i b' st' hd
          simp only [Except.ok.injEq, Prod.mk.injEq] at hok
          obtain ⟨-, rfl⟩ := hok
          obtain ⟨hA, hB⟩ := ih hd
          obtain ⟨hC, hD⟩ := handle_msg_mapWid_msgs hh
          refine ⟨by rw [hA]; exact hC, ?_⟩
          intro m hm
          rcases hB m hm with hm' | hp
          · rcases List.mem_append.mp hm' with hm'' | hm''
            · exact Or.inl hm''
            · exact Or.inr (hD m hm'')
          · exact Or.inr hp

lemma receiveLoop_mapWid_msgs {fuel : ℕ} {st st1 : DrainState}
    (hok : receiveLoop fuel st = .ok (some st1)) :
    mapWid st1.W = mapWid st.W ∧
      ∀ m ∈ st1.msgs, m ∈ st.msgs ∨ m.payload = .signal MAN_SIGNAL_REQ_PICKLE_DUMP := by
  induction fuel generalizing st with
  | zero => simp [receiveLoop] at hok
  | succ fuel ih =>
    unfold receiveLoop at hok
    split_ifs at hok with hact
    · split at hok
      · simp at hok
      · rename_i b st' hd
        obtain ⟨hA, hB⟩ := drainWorkerList_mapWid_msgs hd
        split_ifs at hok with hb
        · obtain ⟨hC, hD⟩ := ih hok
          refine ⟨by rw [hC, hA], ?_⟩
          intro m hm
          rcases hD m hm with hm' | hp
          · exact hB m hm'
          · exact Or.inr hp
        · simp only [Except.ok.injEq, Option.some.injEq] at hok
          subst hok
          exact ⟨hA, hB⟩
    · simp only [Except.ok.injEq, Option.some.injEq] at hok
      subst hok
      exact ⟨rfl, fun m hm => Or.inl hm⟩

lemma final_receive_and_kill_msgs {fuel rfuel : ℕ} {st : DrainState}
    {ec : ExitCriteria} {start_time : ℚ} {times : ℕ → ℚ} {k : ℕ}
    {pi1 : PI} {flag : ℕ} {msgs : List Msg}
    (hok : final_receive_and_kill fuel rfuel st ec start_time times k =
      .ok (some (pi1, flag, msgs))) :
    ∃ stf : DrainState, mapWid stf.W = mapWid st.W ∧
      (∀ m ∈ stf.msgs, m ∈ st.msgs ∨ m.payload = .signal MAN_SIGNAL_REQ_PICKLE_DUMP) ∧
      msgs = stf.msgs ++ killMsgs stf.W := by
  induction fuel generalizing st k with
  | zero => simp [final_receive_and_kill] at hok
  | succ fuel ih =>
    unfold final_receive_and_kill at hok
    split_ifs at hok with hact
    · split at hok
      · simp at hok
      · simp at hok
      · rename_i st' hr
        obtain ⟨hA, hB⟩ := receiveLoop_mapWid_msgs hr
        split_ifs at hok with hterm
        · simp only [Except.ok.injEq, Option.some.injEq, Prod.mk.injEq] at hok
          obtain ⟨-, -, rfl⟩ := hok
          exact ⟨st', hA, hB, rfl⟩
        · obtain ⟨stf, hC, hD, hE⟩ := ih hok
          refine ⟨stf, by rw [hC, hA], ?_, hE⟩
          intro m hm
          rcases hD m hm with hm' | hp
          · exact hB m hm'
          · exact Or.inr hp
    · simp only [Except.ok.injEq, Option.some.injEq, Prod.mk.injEq] at hok
      obtain ⟨-, -, rfl⟩ := hok
      exact ⟨st, rfl, fun m hm => Or.inl hm, rfl⟩

lemma countFinish_append (a b : List Msg) (w : ℕ) :
    countFinish (a ++ b) w = countFinish a w + countFinish b w := by
  simp [countFinish, List.filter_append]

lemma countFinish_pickle_zero {msgs : List Msg} {w : ℕ}
    (h : ∀ m ∈ msgs, m.payload = .signal MAN_SIGNAL_REQ_PICKLE_DUMP) :
    countFinish msgs w = 0 := by
  unfold countFinish
  rw [List.length_eq_zero]
  rw [List.filter_eq_nil]
  intro m hm
  have hp : (m.payload == Payload.signal MAN_SIGNAL_FINISH) = false := by
    rw [h m hm]; decide
  simp [hp]

lemma countFinish_kill (W : List WorkerRec) (w : ℕ) :
    countFinish (killMsgs W) w = (mapWid W).count w := by
  unfold countFinish killMsgs mapWid
  rw [← List.countP_eq_length_filter, List.countP_map, List.count_eq_countP, List.countP_map]
  apply List.countP_congr
  intro r hr
  simp [STOP_TAG]

lemma mapWid_initW (N : ℕ) : mapWid (initW N) = (List.range N).map (fun k => k + 1) := by
  simp [mapWid, initW, List.map_map]

lemma count_shifted_range {N w : ℕ} (hw1 : 1 ≤ w) (hw2 : w ≤ N) :
    ((List.range N).map (fun k => k + 1)).count w = 1 := by
  apply List.count_eq_one_of_mem
  · exact List.Nodup.map (fun a b h => by omega) (List.nodup_range N)
  · simp only [List.mem_map, List.mem_range]
    exact ⟨w - 1, by omega, by omega⟩

/-- C3 (amended).  On the non-exceptional shutdown path,
`final_receive_and_kill`, entered from any state whose registry carries
the worker ids `1..N` — workers active or idle — and whose send log is
empty, emits exactly one `MAN_SIGNAL_FINISH` (on the `STOP` tag) to every
worker id, whatever draining, pickle-dump recoveries and wallclock
flag-2 break happen on the way to the kill loop. -/
theorem final_receive_sends_finish_once
    (fuel rfuel N k : ℕ) (st : DrainState)
    (ec : ExitCriteria) (start_time : ℚ) (times : ℕ → ℚ)
    (pi1 : PI) (flag : ℕ) (msgs : List Msg) (w : ℕ)
    (hwid : mapWid st.W = (List.range N).map (fun j => j + 1))
    (hmsgs : st.msgs = [])
    (hok : final_receive_and_kill fuel rfuel st ec start_time times k =
      .ok (some (pi1, flag, msgs)))
    (hw1 : 1 ≤ w) (hw2 : w ≤ N) :
    countFinish msgs w = 1 := by
  obtain ⟨stf, hA, hB, hE⟩ := final_receive_and_kill_msgs hok
  subst hE
  rw [countFinish_append]
  have h0 : countFinish stf.msgs w = 0 := by
    apply countFinish_pickle_zero
    intro m hm
    rcases hB m hm with h | h
    · rw [hmsgs] at h
      simp at h
    · exact h
  rw [h0, countFinish_kill, hA, hwid]
  simpa using count_shifted_range hw1 hw2

/-- Counterexample to C3 as stated: on the abort path (an exception
escaping `manager_main`), `libE_mpi_manager` dumps the history and aborts
the transport and no worker is sent `MAN_SIGNAL_FINISH` at all, so worker
1 receives zero `FINISH` signals rather than exactly one. -/
theorem abort_path_sends_no_finish :
    countFinish (libE_mpi_manager_worker_msgs (.error ("manager exception"))) 1 = 0 := rfl

/-- Witness for C3 (amended): worker 1 enters the shutdown still active
with a finished-persistent result pending; the drain consumes the
message, deactivates the worker, and the kill loop then sends exactly one
`FINISH` to worker 1. -/
theorem final_receive_sends_finish_once_witness :
    countFinish
      [⟨1, STOP_TAG, Payload.signal MAN_SIGNAL_FINISH⟩] 1 = 1 := by
  have h := final_receive_sends_finish_once 2 2 1 0 stC3 {} 0 (fun _ => 0) piC4 0
    [⟨1, STOP_TAG, Payload.signal MAN_SIGNAL_FINISH⟩] 1 rfl rfl rfl
    (le_refl 1) (le_refl 1)
  exact h

/-- C7 (amended).  `final_receive_and_kill` returns `exit_flag = 2` when
some worker is still active on entry and remains active after a drain at
which the termination test reports the wallclock timeout; but when every
worker is idle on entry the receive loop never runs and the flag stays
`0`, even if the run stopped because of the timeout. -/
theorem exit_flag_two_requires_active_worker
    (fuel rfuel : ℕ) (st st1 : DrainState) (ec : ExitCriteria)
    (start_time : ℚ) (times : ℕ → ℚ) (k : ℕ) :
    ((st.W.all (fun r => r.active == 0) = true →
      final_receive_and_kill (fuel + 1) rfuel st ec start_time times k =
        .ok (some (st.pi, 0, st.msgs ++ killMsgs st.W)))) ∧
    ((st.W.any (fun r => r.active != 0) = true →
      receiveLoop rfuel st = .ok (some st1) →
      termination_test st1.hist ec start_time (times k) = 2 →
      st1.W.any (fun r => r.active != 0) = true →
      final_receive_and_kill (fuel + 1) rfuel st ec start_time times k =
        .ok (some (st1.pi, 2, st1.msgs ++ killMsgs st1.W)))) := by
  constructor
  · intro hall
    have hany : (st.W.any (fun r => r.active != 0)) = false := by
      simp only [List.all_eq_true] at hall
      simp only [List.any_eq_false]
      intro r hr
      simpa using hall r hr
    unfold final_receive_and_kill
    simp [hany]
  · intro hany hrecv hterm hany1
    unfold final_receive_and_kill
    rw [if_pos hany, hrecv]
    dsimp only
    rw [if_pos ⟨hterm, hany1⟩]

/-- Counterexample to C7 as stated: with the zero wallclock budget tripped
(the termination test reports `2` at the shutdown check time) but no
worker active, `final_receive_and_kill` returns `exit_flag = 0`, not `2`. -/
theorem wallclock_halt_can_return_flag_zero :
    termination_test histC4 ecC7 0 0 = 2 ∧
    final_receive_and_kill 1 1 stC7 ecC7 0 (fun _ => 0) 0 =
      .ok (some (piC4, 0, killMsgs stC7.W)) := by
  constructor
  · simp [termination_test, ecC7]
  · rfl

/-- Witness for C7 (amended): worker 1 still active after an empty drain
while the wallclock clause reports `2`; the flag is `2`. -/
theorem exit_flag_two_witness :
    final_receive_and_kill 1 1 stC7b ecC7 0 (fun _ => 0) 0 =
      .ok (some (stC7b.pi, 2, stC7b.msgs ++ killMsgs stC7b.W)) :=
  (exit_flag_two_requires_active_worker 0 1 stC7b stC7b ecC7 0 (fun _ => 0) 0).2
    rfl rfl (by simp [termination_test, ecC7]) rfl

/-! ## Claims C5, C6: the allocator view and the persistent row selection -/

/-- C5.  The manager's allocation step hands the allocator the pure view
`trim_H` and keeps only the work map: whatever the allocator does to its
copy (and `persistent_aposmm_alloc` does set `given_back` on it, as the
second part shows on `HC5`), the manager-side history is unchanged. -/
theorem alloc_view_leaves_history_unchanged :
    (∀ (hist : Hist) (W : List WorkerRec) (ss : SimSpecs) (gs : GenSpecs) (pis : PI),
      (manager_alloc_step hist W ss gs pis).1 = hist) ∧
    (persistent_aposmm_alloc WC6 HC5 ssC6 gsC6 piC4).2 ≠ HC5 :=
  ⟨fun _ _ _ _ _ => rfl, by decide⟩

/-- C6 is violated by the code: on `HC6` the persistent-generator work
unit for worker 1 references row 0 — a row with `given_back = true` — and
row 1, the row that is returned and not given back, is neither referenced
nor marked: the `np.where` indices are taken in the coordinates of the
compressed array `H[gen_inds]` but applied to the full `H`. -/
theorem persistent_alloc_references_wrong_rows :
    ∃ wu, (1, wu) ∈ (persistent_aposmm_alloc WC6 HC6 ssC6 gsC6 piC4).1 ∧
      wu.libE_info.persistent = true ∧
      wu.libE_info.H_rows = [0] ∧
      (HC6.getD 0 default).given_back = true ∧
      (HC6.getD 1 default).returned = true ∧
      (HC6.getD 1 default).given_back = false ∧
      ((persistent_aposmm_alloc WC6 HC6 ssC6 gsC6 piC4).2.getD 1 default).given_back = false :=
  ⟨workBugC6, by decide, rfl, rfl, rfl, rfl, rfl, by decide⟩

/-! ## Claim C8: unknown fields in a dispatch -/

/-- Counterexample to C8 as stated: with empty `H_rows` the field check is
skipped entirely — the dispatch succeeds and the work unit is sent even
though `bogus` is not in the schema of `histC2`. -/
theorem unknown_fields_sent_when_no_rows :
    send_to_worker_and_update_active_and_idle histC2 workC8 1 regC8 0 =
      .ok ([{ worker_id := 1, active := EVAL_GEN_TAG }], histC2,
           [⟨1, EVAL_GEN_TAG, .workUnit workC8⟩]) ∧
    histC2.fieldNames.contains ("bogus") = false :=
  ⟨rfl, rfl⟩

/-- C8 (amended).  When `H_rows` is non-empty and a requested field is not
in the history schema, the dispatch fails — but only after the work-unit
message itself has been sent, and before the history slice is sent. -/
theorem unknown_fields_abort_when_rows_nonempty
    (hist : Hist) (Work : WorkUnit) (w : ℕ) (W : List WorkerRec) (now : ℚ) (i : ℕ)
    (hw0 : w ≠ 0) (hpy : pyIdx w W.length = some i)
    (hidle : (wAt W i).active = 0)
    (hrows : Work.libE_info.H_rows ≠ [])
    (hbad : Work.H_fields.all (fun f => hist.fieldNames.contains f) = false) :
    send_to_worker_and_update_active_and_idle hist Work w W now =
      .error ("Allocation function requested a field not in history",
              [⟨w, Work.tag, .workUnit Work⟩]) := by
  unfold send_to_worker_and_update_active_and_idle
  rw [if_neg hw0, hpy]
  dsimp only
  rw [if_neg (by simp [hidle])]
  try dsimp only
  rw [if_neg hrows, if_neg (by rw [hbad]; exact Bool.false_ne_true)]

/-- Witness for C8 (amended): the same unknown-field request with one row
aborts after sending the work unit to worker 1. -/
theorem unknown_fields_abort_witness :
    send_to_worker_and_update_active_and_idle histC2 workC8b 1 regC8 0 =
      .error ("Allocation function requested a field not in history",
              [⟨1, EVAL_GEN_TAG, .workUnit workC8b⟩]) :=
  unknown_fields_abort_when_rows_nonempty histC2 workC8b 1 regC8 0 0
    (by decide) rfl rfl (by decide) rfl

/-- Witness for C5: a concrete allocation round leaves the manager's
history untouched. -/
theorem alloc_view_unchanged_witness :
    (manager_alloc_step histC2 WC6 ssC6 gsC6 piC4).1 = histC2 :=
  alloc_view_leaves_history_unchanged.1 histC2 WC6 ssC6 gsC6 piC4
